import Mathlib

/-
  Verification development for the news-management API (Node/Express + SQLite).

  The embedding mirrors the JavaScript source:
  - a database row or a JS request body is an ordered association list of
    column names to values (`Row`);
  - values are `JsVal` (SQLite NULL, booleans, integers, strings);
  - `CURRENT_TIMESTAMP` is modelled as an opaque integer clock value that is
    passed to every state-changing operation;
  - strings fed to the slug generator are modelled as lists of Unicode code
    points, with `toLowerCase` restricted to its ASCII case mapping.
-/

set_option autoImplicit false

/-- A JavaScript or SQLite value as it is stored in rows and payloads. -/
inductive JsVal where
  | vNull : JsVal
  | vBool : Bool → JsVal
  | vNum : Int → JsVal
  | vStr : String → JsVal
deriving DecidableEq

open JsVal

/-- JavaScript truthiness of a present value (an absent key, i.e. `undefined`,
is handled by `truthyO`). -/
def truthy : JsVal → Bool
  | vNull => false
  | vBool b => b
  | vNum n => decide (n ≠ 0)
  | vStr s => decide (s ≠ "")

/-- JavaScript truthiness of an optional value; a missing key is falsy. -/
def truthyO : Option JsVal → Bool
  | none => false
  | some v => truthy v

/-- A database row, or a JS object such as a request body: an ordered
association list of column names to values. -/
abbrev Row : Type := List (String × JsVal)

/-- Value of a column in a row (`undefined`, i.e. `none`, when absent). -/
def getVal : Row → String → Option JsVal
  | [], _ => none
  | (k, v) :: r, k' => if k = k' then some v else getVal r k'

/-- Value of a column, with SQL NULL for a column that is absent. -/
def getValD (row : Row) (k : String) : JsVal :=
  (getVal row k).getD vNull

/-- Whether the row has the given column. -/
def hasCol (row : Row) (k : String) : Bool :=
  (getVal row k).isSome

/-- One assignment of an UPDATE statement's SET clause: every entry of the row
whose column name matches is overwritten. -/
def setCol (row : Row) (k : String) (v : JsVal) : Row :=
  row.map (fun p => if p.1 = k then (k, v) else p)

/-- JS property assignment `obj[k] = v`: overwrite in place when the key is
present, append the key otherwise. -/
def setKey (row : Row) (k : String) (v : JsVal) : Row :=
  if hasCol row k then setCol row k v else row ++ [(k, v)]

/-- Apply the assignments of a SET clause in order. -/
def applySets (row : Row) (sets : Row) : Row :=
  sets.foldl (fun r p => setCol r p.1 p.2) row

/-
  Slug generator (News.generateSlug, Category.generateSlug).

  JS strings are modelled as lists of Unicode code points.  `toLowerCase` is
  modelled by its ASCII case mapping (code points 65..90 map to 97..122, all
  others are fixed), which is exact for ASCII input; the regex classes \w and
  \s are the ECMAScript ones.
-/

/-- ASCII lower-casing of one code point (the effect of JS toLowerCase on
ASCII; other code points are left unchanged). -/
def lowerCode (c : Nat) : Nat :=
  if 65 ≤ c ∧ c ≤ 90 then c + 32 else c

/-- Code points matched by the ECMAScript regex class \s (also the set removed
by String.prototype.trim). -/
def isWsCode (c : Nat) : Bool :=
  (9 ≤ c && c ≤ 13) || c = 32 || c = 160 || c = 5760 || (8192 ≤ c && c ≤ 8202)
    || c = 8232 || c = 8233 || c = 8239 || c = 8287 || c = 12288 || c = 65279

/-- Code points matched by the ECMAScript regex class \w : [A-Za-z0-9_]. -/
def isWordCode (c : Nat) : Bool :=
  (65 ≤ c && c ≤ 90) || (97 ≤ c && c ≤ 122) || (48 ≤ c && c ≤ 57) || c = 95

/-- Code points matched by the class [\s_-] of the collapsing regex. -/
def isSepCode (c : Nat) : Bool :=
  isWsCode c || c = 95 || c = 45

/-- String.prototype.trim: drop whitespace from both ends. -/
def trimCodes (l : List Nat) : List Nat :=
  ((l.dropWhile isWsCode).reverse.dropWhile isWsCode).reverse

/-- Global replacement of the regex [\s_-]+ by a single hyphen (code point 45):
each maximal run of separator code points becomes one hyphen.  The flag records
whether the previous code point belonged to a separator run. -/
def collapseFrom : Bool → List Nat → List Nat
  | _, [] => []
  | afterSep, c :: r =>
    if isSepCode c then
      if afterSep then collapseFrom true r else 45 :: collapseFrom true r
    else c :: collapseFrom false r

/-- replace(regex of [\s_-]+, hyphen) applied globally. -/
def collapseSeps (l : List Nat) : List Nat :=
  collapseFrom false l

/-- Global replacement of leading and trailing hyphen runs by nothing. -/
def stripEdgeHyphens (l : List Nat) : List Nat :=
  ((l.dropWhile (fun c => c = 45)).reverse.dropWhile (fun c => c = 45)).reverse

/-- The common slug pipeline of News.generateSlug and Category.generateSlug:
lowercase, trim, remove the code points outside \w, \s and hyphen, collapse
separator runs to single hyphens, strip edge hyphens. -/
def slugPipeline (l : List Nat) : List Nat :=
  stripEdgeHyphens (collapseSeps
    ((trimCodes (l.map lowerCode)).filter (fun c => isWordCode c || isWsCode c || c = 45)))

/-- News.generateSlug on code points: the pipeline followed by substring(0, 500). -/
def News.generateSlugCodes (l : List Nat) : List Nat :=
  (slugPipeline l).take 500

/-- Category.generateSlug on code points: the pipeline, with no truncation. -/
def Category.generateSlugCodes (l : List Nat) : List Nat :=
  slugPipeline l

/-- Code points of a Lean string. -/
def strCodes (s : String) : List Nat :=
  s.data.map Char.toNat

/-- String from a list of code points. -/
def codesStr (l : List Nat) : String :=
  ⟨l.map Char.ofNat⟩

/-- News.generateSlug on strings. -/
def News.generateSlug (s : String) : String :=
  codesStr (News.generateSlugCodes (strCodes s))

/-- Category.generateSlug on strings. -/
def Category.generateSlug (s : String) : String :=
  codesStr (Category.generateSlugCodes (strCodes s))

/-- Modelled from the spec (claim C4): the keep set of the spec's strip step,
"strip all characters outside [a-z0-9, whitespace, hyphen]" — note the absence
of the underscore. -/
def specKeepStrict (c : Nat) : Bool :=
  (97 ≤ c && c ≤ 122) || (48 ≤ c && c ≤ 57) || isWsCode c || c = 45

/-- The amended keep set: [a-z0-9, underscore, whitespace, hyphen]. -/
def specKeepAmended (c : Nat) : Bool :=
  (97 ≤ c && c ≤ 122) || (48 ≤ c && c ≤ 57) || c = 95 || isWsCode c || c = 45

mutual

/-- Collapse of separator runs written the way the spec describes it: a
separator run becomes one hyphen and the remainder of the run is skipped
(`skipSepRun`). -/
def collapseSpec : List Nat → List Nat
  | [] => []
  | c :: r => if isSepCode c then 45 :: skipSepRun r else c :: collapseSpec r

/-- Skip the remainder of a separator run, then resume collapsing. -/
def skipSepRun : List Nat → List Nat
  | [] => []
  | c :: r => if isSepCode c then skipSepRun r else c :: collapseSpec r

end

/-- Modelled from the spec (claim C4), with the spec's literal strip set:
lowercase; trim; strip all characters outside [a-z0-9, whitespace, hyphen];
collapse runs of whitespace, underscore and hyphen into a single hyphen; strip
leading and trailing hyphens. -/
def slugifySpecStrict (l : List Nat) : List Nat :=
  stripEdgeHyphens (collapseSpec ((trimCodes (l.map lowerCode)).filter specKeepStrict))

/-- The amended pipeline: identical to `slugifySpecStrict` except that the
strip step also keeps the underscore. -/
def slugifySpecAmended (l : List Nat) : List Nat :=
  stripEdgeHyphens (collapseSpec ((trimCodes (l.map lowerCode)).filter specKeepAmended))

/-
  Model layer: generic update with a per-entity allow-list of mutable fields
  (User.updateById, Category.updateById, News.updateById).
-/

/-- Allow-list of User.updateById. -/
def userAllowedFields : List String :=
  ["username", "email", "first_name", "last_name", "role", "is_active"]

/-- Allow-list of Category.updateById. -/
def categoryAllowedFields : List String :=
  ["name", "description", "slug", "is_active"]

/-- Allow-list of News.updateById. -/
def newsAllowedFields : List String :=
  ["title", "content", "summary", "slug", "featured_image", "status", "category_id"]

/-- The Object.keys loop of updateById: keep the payload entries whose key is
on the allow-list, in payload order. -/
def filterAllowed (allowed : List String) (p : Row) : Row :=
  p.filter (fun q => decide (q.1 ∈ allowed))

/-- User.updateById applied to the addressed row: build the SET clause from
the allow-listed payload entries, fail when none remains, stamp updated_at. -/
def User.updateById (row : Row) (p : Row) (now : Int) : Except String Row :=
  let fields := filterAllowed userAllowedFields p
  if fields.isEmpty then Except.error "No valid fields to update"
  else Except.ok (setCol (applySets row fields) "updated_at" (vNum now))

/-- Category.updateById applied to the addressed row. -/
def Category.updateById (row : Row) (p : Row) (now : Int) : Except String Row :=
  let fields := filterAllowed categoryAllowedFields p
  if fields.isEmpty then Except.error "No valid fields to update"
  else Except.ok (setCol (applySets row fields) "updated_at" (vNum now))

/-- News.updateById applied to the addressed row: as the generic update, and
additionally published_at is stamped when the payload's status is "published"
and cleared when the payload carries any other truthy status. -/
def News.updateById (row : Row) (p : Row) (now : Int) : Except String Row :=
  let fields := filterAllowed newsAllowedFields p
  if fields.isEmpty then Except.error "No valid fields to update"
  else
    let r1 := applySets row fields
    let r2 :=
      match getVal p "status" with
      | some v =>
        if v = vStr "published" then setCol r1 "published_at" (vNum now)
        else if truthy v then setCol r1 "published_at" vNull
        else r1
      | none => r1
    Except.ok (setCol r2 "updated_at" (vNum now))

/-
  Stores: a table is a list of rows; SELECT/UPDATE/DELETE ... WHERE id = ?
  address the rows whose id column equals the given integer.
-/

/-- Whether a row's id column holds the given integer. -/
def rowHasId (id : Nat) (r : Row) : Bool :=
  decide (getVal r "id" = some (vNum id))

/-- SELECT ... WHERE id = ? (findById, without the display-only joins). -/
def findRowById (store : List Row) (id : Nat) : Option Row :=
  store.find? (rowHasId id)

/-- Write back an updated row under the given id. -/
def replaceRowById (store : List Row) (id : Nat) (r' : Row) : List Row :=
  store.map (fun r => if rowHasId id r then r' else r)

/-- DELETE ... WHERE id = ?. -/
def removeRowById (store : List Row) (id : Nat) : List Row :=
  store.filter (fun r => !rowHasId id r)

/-- deleteById: hard delete, reporting whether a row was removed
(result.changes > 0). -/
def deleteByIdStore (store : List Row) (id : Nat) : Bool × List Row :=
  (store.any (rowHasId id), removeRowById store id)

/-- Category.deleteById: plain DELETE with no referential guard of its own. -/
def Category.deleteById (cstore : List Row) (id : Nat) : Bool × List Row :=
  deleteByIdStore cstore id

/-- News.deleteById. -/
def News.deleteById (nstore : List Row) (id : Nat) : Bool × List Row :=
  deleteByIdStore nstore id

/-- User.deleteById. -/
def User.deleteById (ustore : List Row) (id : Nat) : Bool × List Row :=
  deleteByIdStore ustore id

/-- Number of news rows whose category_id equals the given category id (the
COUNT of the LEFT JOIN in Category.findByIdWithNewsCount). -/
def newsCountFor (nstore : List Row) (catId : Nat) : Nat :=
  (nstore.filter (fun r => decide (getVal r "category_id" = some (vNum catId)))).length

/-
  Query builder / list engine (User.findAll, Category.findAll, News.findAll).
-/

/-- ASCII lower-casing of a string (JS toLowerCase, SQLite LIKE case folding). -/
def strLower (s : String) : String :=
  codesStr ((strCodes s).map lowerCode)

/-- Text rendering of a value for SQLite LIKE (NULL yields no text and the
comparison is not satisfied). -/
def valText : JsVal → Option String
  | vNull => none
  | vBool b => some (if b then "1" else "0")
  | vNum n => some (toString n)
  | vStr s => some s

/-- Whether the first code-point list is a prefix of the second. -/
def codesPref : List Nat → List Nat → Bool
  | [], _ => true
  | _ :: _, [] => false
  | a :: as, b :: bs => a = b && codesPref as bs

/-- Whether the first code-point list occurs inside the second. -/
def codesContains (needle : List Nat) : List Nat → Bool
  | [] => codesPref needle []
  | c :: r => codesPref needle (c :: r) || codesContains needle r

/-- column LIKE percent-term-percent: case-insensitive substring match. -/
def likeContains (term : String) (v : JsVal) : Bool :=
  match valText v with
  | none => false
  | some s => codesContains ((strCodes term).map lowerCode) ((strCodes s).map lowerCode)

/-- An equality filter of the WHERE clause: applied only when the option is
present and truthy (the JS guards read `if (value)`). -/
def eqCond (o : Option JsVal) (row : Row) (col : String) : Bool :=
  match o with
  | none => true
  | some v => if truthy v then decide (getVal row col = some v) else true

/-- An is_active filter: applied only when the option is a boolean
(`typeof is_active === 'boolean'`), comparing against the stored 1 or 0. -/
def isActiveCond (o : Option Bool) (row : Row) : Bool :=
  match o with
  | none => true
  | some b => decide (getVal row "is_active" = some (vNum (if b then 1 else 0)))

/-- A free-text search filter over the given columns: applied only when the
search option is present and truthy. -/
def searchCond (o : Option String) (cols : List String) (row : Row) : Bool :=
  match o with
  | none => true
  | some s => if s = "" then true else cols.any (fun c => likeContains s (getValD row c))

/-- SQLite ordering of values: NULL sorts first, then numeric values by
magnitude (booleans as integers), then text lexicographically. -/
def jsValLe (a b : JsVal) : Bool :=
  match a, b with
  | vNull, _ => true
  | _, vNull => false
  | vBool x, vBool y => !x || y
  | vBool x, vNum m => decide ((if x then (1 : Int) else 0) ≤ m)
  | vNum n, vBool y => decide (n ≤ (if y then (1 : Int) else 0))
  | vNum n, vNum m => decide (n ≤ m)
  | vBool _, vStr _ => true
  | vNum _, vStr _ => true
  | vStr _, vBool _ => false
  | vStr _, vNum _ => false
  | vStr s, vStr t => decide (s ≤ t)

/-- Insert into a sorted list, keeping earlier elements in front of equal
later ones. -/
def insertLe {α : Type} (le : α → α → Bool) (a : α) : List α → List α
  | [] => [a]
  | b :: r => if le b a then b :: insertLe le a r else a :: b :: r

/-- Insertion sort with respect to a boolean comparison. -/
def sortLe {α : Type} (le : α → α → Bool) : List α → List α
  | [] => []
  | a :: r => insertLe le a (sortLe le r)

/-- ORDER BY col dir over rows; ascending when asc is true, else descending. -/
def orderRows (asc : Bool) (col : String) (rows : List Row) : List Row :=
  if asc then sortLe (fun r1 r2 => jsValLe (getValD r1 col) (getValD r2 col)) rows
  else sortLe (fun r1 r2 => jsValLe (getValD r2 col) (getValD r1 col)) rows

/-- Math.ceil of total divided by limit, on naturals (limit positive). -/
def ceilFrac (total limit : Nat) : Nat :=
  (total + limit - 1) / limit

/-- The pagination block of a list result. -/
structure Pagination where
  page : Nat
  limit : Nat
  total : Nat
  pages : Nat
deriving DecidableEq

/-- A list result: the fetched page of rows plus the pagination block. -/
structure ListResult where
  items : List Row
  pagination : Pagination
deriving DecidableEq

/-- Shared tail of the three findAll implementations: filter, count the total
independent of pagination, order by the validated sort field, fetch the page
with LIMIT and OFFSET, and build the pagination block. -/
def runListQuery (rows : List Row) (pred : Row → Bool) (validSortFields : List String)
    (sort : String) (order : String) (page limit : Nat) : ListResult :=
  let offset := (page - 1) * limit
  let sortField := if sort ∈ validSortFields then sort else "created_at"
  let asc := strLower order = "asc"
  let filtered := rows.filter pred
  let total := filtered.length
  { items := ((orderRows asc sortField filtered).drop offset).take limit,
    pagination := { page := page, limit := limit, total := total,
                    pages := ceilFrac total limit } }

/-- Options of User.findAll (the destructuring defaults are applied by the
controller layer of the model; options here are the destructured values). -/
structure UserFindOptions where
  page : Nat
  limit : Nat
  sort : String
  order : String
  role : Option JsVal
  is_active : Option Bool
  search : Option String
deriving DecidableEq

/-- The WHERE clause of User.findAll. -/
def userMatches (o : UserFindOptions) (row : Row) : Bool :=
  eqCond o.role row "role" && isActiveCond o.is_active row
    && searchCond o.search ["username", "email", "first_name", "last_name"] row

/-- User.findAll. -/
def User.findAll (rows : List Row) (o : UserFindOptions) : ListResult :=
  runListQuery rows (userMatches o)
    ["id", "username", "email", "first_name", "last_name", "role", "created_at"]
    o.sort o.order o.page o.limit

/-- Options of Category.findAll. -/
structure CategoryFindOptions where
  page : Nat
  limit : Nat
  sort : String
  order : String
  is_active : Option Bool
  search : Option String
deriving DecidableEq

/-- The WHERE clause of Category.findAll. -/
def categoryMatches (o : CategoryFindOptions) (row : Row) : Bool :=
  isActiveCond o.is_active row && searchCond o.search ["name", "description"] row

/-- Category.findAll. -/
def Category.findAll (rows : List Row) (o : CategoryFindOptions) : ListResult :=
  runListQuery rows (categoryMatches o) ["id", "name", "slug", "created_at"]
    o.sort o.order o.page o.limit

/-- Options of News.findAll. -/
structure NewsFindOptions where
  page : Nat
  limit : Nat
  sort : String
  order : String
  status : Option JsVal
  category_id : Option JsVal
  author_id : Option JsVal
  search : Option String
deriving DecidableEq

/-- The WHERE clause of News.findAll. -/
def newsMatches (o : NewsFindOptions) (row : Row) : Bool :=
  eqCond o.status row "status" && eqCond o.category_id row "category_id"
    && eqCond o.author_id row "author_id"
    && searchCond o.search ["title", "content", "summary"] row

/-- News.findAll. -/
def News.findAll (rows : List Row) (o : NewsFindOptions) : ListResult :=
  runListQuery rows (newsMatches o) ["id", "title", "status", "published_at", "created_at"]
    o.sort o.order o.page o.limit

/-- News.findPublished: findAll with the caller's options spread first and the
status preset written after it, so the preset wins. -/
def News.findPublished (rows : List Row) (o : NewsFindOptions) : ListResult :=
  News.findAll rows { o with status := some (vStr "published") }

/-- News.findByCategory. -/
def News.findByCategory (rows : List Row) (categoryId : JsVal) (o : NewsFindOptions) : ListResult :=
  News.findAll rows { o with category_id := some categoryId }

/-- News.findByAuthor. -/
def News.findByAuthor (rows : List Row) (authorId : JsVal) (o : NewsFindOptions) : ListResult :=
  News.findAll rows { o with author_id := some authorId }

/-- News.search. -/
def News.search (rows : List Row) (searchTerm : String) (o : NewsFindOptions) : ListResult :=
  News.findAll rows { o with search := some searchTerm }

/-
  News.create: INSERT of the validated payload; the insert lists no
  published_at column, so the stored row gets the schema default NULL, and
  created_at and updated_at get the CURRENT_TIMESTAMP default.
-/

/-- A validated news-creation payload (shapes guaranteed by the Joi schema). -/
structure NewsCreateData where
  title : String
  content : String
  summary : Option String
  slug : Option String
  featured_image : Option String
  status : Option String
  category_id : Option Int
  author_id : Int
deriving DecidableEq

/-- An optional text value as stored. -/
def optStrVal : Option String → JsVal
  | none => vNull
  | some s => vStr s

/-- An optional integer value as stored. -/
def optNumVal : Option Int → JsVal
  | none => vNull
  | some n => vNum n

/-- News.create: the stored (and re-read) row.  The slug falls back to
generateSlug(title) when the payload slug is absent or falsy, and status
defaults to draft when absent. -/
def News.create (d : NewsCreateData) (newId : Nat) (now : Int) : Row :=
  let finalSlug :=
    match d.slug with
    | some s => if s = "" then News.generateSlug d.title else s
    | none => News.generateSlug d.title
  [("id", vNum newId), ("title", vStr d.title), ("content", vStr d.content),
   ("summary", optStrVal d.summary), ("slug", vStr finalSlug),
   ("featured_image", optStrVal d.featured_image),
   ("status", vStr (d.status.getD "draft")), ("category_id", optNumVal d.category_id),
   ("author_id", vNum d.author_id), ("published_at", vNull),
   ("created_at", vNum now), ("updated_at", vNum now)]

/-
  Controllers.  A controller turns a request into an HTTP response and the
  resulting table state; req.user is the authenticated caller.
-/

/-- The authenticated caller (req.user). -/
structure Caller where
  id : Int
  role : String
deriving DecidableEq

/-- The observable outcome of a request: HTTP status code and whether the
response envelope has status success. -/
structure HttpResp where
  code : Nat
  ok : Bool
deriving DecidableEq

/-- The news ownership check of updateNews and deleteNews: admin, editor, or
the caller is the author. -/
def newsAuthorized (user : Caller) (row : Row) : Bool :=
  decide (user.role = "admin") || decide (user.role = "editor")
    || decide (getVal row "author_id" = some (vNum user.id))

/-- The slug regeneration step of updateNews: when the payload carries a
truthy title and no truthy slug, the slug is regenerated from the title.  The
none result models the TypeError thrown when the truthy title is not a string
(caught by the handler as a 500). -/
def newsSlugStep (body : Row) : Option Row :=
  if truthyO (getVal body "title") && !truthyO (getVal body "slug") then
    match getVal body "title" with
    | some (vStr t) => some (setKey body "slug" (vStr (News.generateSlug t)))
    | _ => none
  else some body

/-- The slug uniqueness pre-check of updateNews (News.existsBySlug with the
updated article excluded). -/
def newsSlugConflict (body : Row) (nstore : List Row) (excludeId : Nat) : Bool :=
  match getVal body "slug" with
  | some sv =>
    truthy sv && nstore.any (fun r => decide (getVal r "slug" = some sv) && !rowHasId excludeId r)
  | none => false

/-- The category existence pre-check of updateNews. -/
def newsCategoryMissing (body : Row) (cstore : List Row) : Bool :=
  match getVal body "category_id" with
  | some cv => truthy cv && !(cstore.any (fun r => decide (getVal r "id" = some cv)))
  | none => false

/-- NewsController.updateNews: 404 when the article is missing, 403 when the
caller is neither admin, editor nor the author, then slug regeneration, slug
and category pre-checks, and finally News.updateById. -/
def NewsController.updateNews (user : Caller) (newsId : Nat) (body : Row)
    (nstore cstore : List Row) (now : Int) : HttpResp × List Row :=
  match findRowById nstore newsId with
  | none => (⟨404, false⟩, nstore)
  | some existingNews =>
    if !newsAuthorized user existingNews then (⟨403, false⟩, nstore)
    else
      match newsSlugStep body with
      | none => (⟨500, false⟩, nstore)
      | some body' =>
        if newsSlugConflict body' nstore newsId then (⟨400, false⟩, nstore)
        else if newsCategoryMissing body' cstore then (⟨400, false⟩, nstore)
        else
          match News.updateById existingNews body' now with
          | Except.error _ => (⟨500, false⟩, nstore)
          | Except.ok r' => (⟨200, true⟩, replaceRowById nstore newsId r')

/-- NewsController.deleteNews: 404 when missing, 403 when not authorized,
otherwise hard delete. -/
def NewsController.deleteNews (user : Caller) (newsId : Nat) (nstore : List Row) :
    HttpResp × List Row :=
  match findRowById nstore newsId with
  | none => (⟨404, false⟩, nstore)
  | some news =>
    if !newsAuthorized user news then (⟨403, false⟩, nstore)
    else
      let d := News.deleteById nstore newsId
      if d.1 then (⟨200, true⟩, d.2) else (⟨400, false⟩, nstore)

/-- UserController.deleteUser: the self-protection guard runs first, before
the existence check and the delete itself. -/
def UserController.deleteUser (user : Caller) (userId : Nat) (ustore : List Row) :
    HttpResp × List Row :=
  if user.id = (userId : Int) then (⟨400, false⟩, ustore)
  else
    match findRowById ustore userId with
    | none => (⟨404, false⟩, ustore)
    | some _ =>
      let d := User.deleteById ustore userId
      if d.1 then (⟨200, true⟩, d.2) else (⟨400, false⟩, ustore)

/-- UserController.toggleUserStatus: the self-protection guard runs first;
otherwise is_active is flipped through User.updateById. -/
def UserController.toggleUserStatus (user : Caller) (userId : Nat) (ustore : List Row)
    (now : Int) : HttpResp × List Row :=
  if user.id = (userId : Int) then (⟨400, false⟩, ustore)
  else
    match findRowById ustore userId with
    | none => (⟨404, false⟩, ustore)
    | some u =>
      match User.updateById u [("is_active", vBool (!truthyO (getVal u "is_active")))] now with
      | Except.error _ => (⟨500, false⟩, ustore)
      | Except.ok r' => (⟨200, true⟩, replaceRowById ustore userId r')

/-- CategoryController.deleteCategory: 404 when missing, 400 when the joined
news count is positive (the referential guard, enforced here and not by the
database), otherwise Category.deleteById. -/
def CategoryController.deleteCategory (catId : Nat) (cstore nstore : List Row) :
    HttpResp × List Row :=
  match findRowById cstore catId with
  | none => (⟨404, false⟩, cstore)
  | some _ =>
    if 0 < newsCountFor nstore catId then (⟨400, false⟩, cstore)
    else
      let d := Category.deleteById cstore catId
      if d.1 then (⟨200, true⟩, d.2) else (⟨400, false⟩, cstore)

/-- The slug regeneration step of updateCategory, from the category name. -/
def catSlugStep (body : Row) : Option Row :=
  if truthyO (getVal body "name") && !truthyO (getVal body "slug") then
    match getVal body "name" with
    | some (vStr t) => some (setKey body "slug" (vStr (Category.generateSlug t)))
    | _ => none
  else some body

/-- The name-or-slug uniqueness pre-check of updateCategory
(Category.checkExists with the updated category excluded). -/
def catConflict (body existing : Row) (cstore : List Row) (excludeId : Nat) : Bool :=
  if truthyO (getVal body "name") || truthyO (getVal body "slug") then
    let nameQ := if truthyO (getVal body "name") then getValD body "name" else getValD existing "name"
    let slugQ := if truthyO (getVal body "slug") then getValD body "slug" else getValD existing "slug"
    cstore.any (fun r =>
      (decide (getVal r "name" = some nameQ) || decide (getVal r "slug" = some slugQ))
        && !rowHasId excludeId r)
  else false

/-- CategoryController.updateCategory: 404 when missing, slug regeneration
from the name, uniqueness pre-check, then Category.updateById. -/
def CategoryController.updateCategory (catId : Nat) (body : Row) (cstore : List Row)
    (now : Int) : HttpResp × List Row :=
  match findRowById cstore catId with
  | none => (⟨404, false⟩, cstore)
  | some existing =>
    match catSlugStep body with
    | none => (⟨500, false⟩, cstore)
    | some body' =>
      if catConflict body' existing cstore catId then (⟨400, false⟩, cstore)
      else
        match Category.updateById existing body' now with
        | Except.error _ => (⟨500, false⟩, cstore)
        | Except.ok r' => (⟨200, true⟩, replaceRowById cstore catId r')

/-
  Concrete sample data used to instantiate the general theorems.
-/

/-- A sample stored news row (id 1, authored by user 7, in category 3). -/
def demoNewsRow : Row :=
  [("id", vNum 1), ("title", vStr "Hello World"), ("content", vStr "Body text"),
   ("summary", vNull), ("slug", vStr "hello-world"), ("featured_image", vNull),
   ("status", vStr "draft"), ("category_id", vNum 3), ("author_id", vNum 7),
   ("published_at", vNull), ("created_at", vNum 0), ("updated_at", vNum 0)]

/-- A second sample news row (id 2, authored by user 8, no category). -/
def demoNewsRow2 : Row :=
  [("id", vNum 2), ("title", vStr "Second Post"), ("content", vStr "More text"),
   ("summary", vStr "short"), ("slug", vStr "second-post"), ("featured_image", vNull),
   ("status", vStr "published"), ("category_id", vNull), ("author_id", vNum 8),
   ("published_at", vNum 3), ("created_at", vNum 1), ("updated_at", vNum 3)]

/-- A sample news table. -/
def demoNewsStore : List Row :=
  [demoNewsRow, demoNewsRow2]

/-- A sample stored user row (id 5). -/
def demoUserRow : Row :=
  [("id", vNum 5), ("username", vStr "alice"), ("email", vStr "alice@x.com"),
   ("password", vStr "hashed-secret"), ("first_name", vNull), ("last_name", vNull),
   ("role", vStr "user"), ("is_active", vNum 1), ("created_at", vNum 0),
   ("updated_at", vNum 0)]

/-- A sample users table. -/
def demoUserStore : List Row :=
  [demoUserRow]

/-- A sample stored category row (id 3). -/
def demoCatRow : Row :=
  [("id", vNum 3), ("name", vStr "Tech"), ("description", vNull), ("slug", vStr "tech"),
   ("is_active", vNum 1), ("created_at", vNum 0), ("updated_at", vNum 0)]

/-- A sample categories table. -/
def demoCatStore : List Row :=
  [demoCatRow]

/-- Sample user list options: first page of two, sorted by id ascending. -/
def demoUserOpts : UserFindOptions :=
  ⟨1, 2, "id", "asc", none, none, none⟩

/-- Sample category list options. -/
def demoCatOpts : CategoryFindOptions :=
  ⟨1, 2, "name", "asc", none, none⟩

/-- Sample news list options. -/
def demoNewsOpts : NewsFindOptions :=
  ⟨1, 2, "id", "desc", none, none, none, none⟩

/-
  The pagination contract of a list operation (claim C2), stated for each of
  the three entities over its own filter.
-/

/-- The pagination contract of User.findAll. -/
def listContractUser (rows : List Row) (o : UserFindOptions) : Prop :=
  (User.findAll rows o).pagination.total = (rows.filter (userMatches o)).length
  ∧ (∀ p' l', (User.findAll rows { o with page := p', limit := l' }).pagination.total
        = (User.findAll rows o).pagination.total)
  ∧ (User.findAll rows o).pagination.total
      ≤ (User.findAll rows o).pagination.pages * o.limit
  ∧ (∀ m, (User.findAll rows o).pagination.total ≤ m * o.limit →
        (User.findAll rows o).pagination.pages ≤ m)
  ∧ (User.findAll rows o).items
      = ((orderRows (strLower o.order = "asc")
            (if o.sort ∈ ["id", "username", "email", "first_name", "last_name", "role",
                  "created_at"] then o.sort else "created_at")
            (rows.filter (userMatches o))).drop ((o.page - 1) * o.limit)).take o.limit
  ∧ (User.findAll rows o).items.length ≤ o.limit

/-- The pagination contract of Category.findAll. -/
def listContractCategory (rows : List Row) (o : CategoryFindOptions) : Prop :=
  (Category.findAll rows o).pagination.total = (rows.filter (categoryMatches o)).length
  ∧ (∀ p' l', (Category.findAll rows { o with page := p', limit := l' }).pagination.total
        = (Category.findAll rows o).pagination.total)
  ∧ (Category.findAll rows o).pagination.total
      ≤ (Category.findAll rows o).pagination.pages * o.limit
  ∧ (∀ m, (Category.findAll rows o).pagination.total ≤ m * o.limit →
        (Category.findAll rows o).pagination.pages ≤ m)
  ∧ (Category.findAll rows o).items
      = ((orderRows (strLower o.order = "asc")
            (if o.sort ∈ ["id", "name", "slug", "created_at"] then o.sort
              else "created_at")
            (rows.filter (categoryMatches o))).drop ((o.page - 1) * o.limit)).take o.limit
  ∧ (Category.findAll rows o).items.length ≤ o.limit

/-- The pagination contract of News.findAll. -/
def listContractNews (rows : List Row) (o : NewsFindOptions) : Prop :=
  (News.findAll rows o).pagination.total = (rows.filter (newsMatches o)).length
  ∧ (∀ p' l', (News.findAll rows { o with page := p', limit := l' }).pagination.total
        = (News.findAll rows o).pagination.total)
  ∧ (News.findAll rows o).pagination.total
      ≤ (News.findAll rows o).pagination.pages * o.limit
  ∧ (∀ m, (News.findAll rows o).pagination.total ≤ m * o.limit →
        (News.findAll rows o).pagination.pages ≤ m)
  ∧ (News.findAll rows o).items
      = ((orderRows (strLower o.order = "asc")
            (if o.sort ∈ ["id", "title", "status", "published_at", "created_at"]
              then o.sort else "created_at")
            (rows.filter (newsMatches o))).drop ((o.page - 1) * o.limit)).take o.limit
  ∧ (News.findAll rows o).items.length ≤ o.limit


/-
  Helper lemmas about rows and association-list updates.
-/

theorem getVal_cons (a : String) (b : JsVal) (r : Row) (k' : String) :
    getVal ((a, b) :: r) k' = if a = k' then some b else getVal r k' := rfl

theorem setCol_cons (a : String) (b : JsVal) (r : Row) (k : String) (v : JsVal) :
    setCol ((a, b) :: r) k v = (if a = k then (k, v) else (a, b)) :: setCol r k v := by
  simp [setCol]

theorem getVal_setCol_ne (row : Row) (k k' : String) (v : JsVal) (h : k ≠ k') :
    getVal (setCol row k v) k' = getVal row k' := by
  induction row with
  | nil => rfl
  | cons p r ih =>
    obtain ⟨a, b⟩ := p
    rw [setCol_cons]
    by_cases ha : a = k
    · rw [if_pos ha, getVal_cons, getVal_cons, if_neg h, if_neg (ha ▸ h), ih]
    · rw [if_neg ha, getVal_cons, getVal_cons, ih]

theorem getVal_setCol_self (row : Row) (k : String) (v : JsVal) (h : hasCol row k = true) :
    getVal (setCol row k v) k = some v := by
  induction row with
  | nil => simp [hasCol, getVal] at h
  | cons p r ih =>
    obtain ⟨a, b⟩ := p
    rw [setCol_cons]
    by_cases ha : a = k
    · rw [if_pos ha, getVal_cons, if_pos rfl]
    · have h' : hasCol r k = true := by
        simpa [hasCol, getVal_cons, ha] using h
      rw [if_neg ha, getVal_cons, if_neg ha, ih h']

theorem hasCol_setCol (row : Row) (k k' : String) (v : JsVal) :
    hasCol (setCol row k v) k' = hasCol row k' := by
  induction row with
  | nil => rfl
  | cons p r ih =>
    obtain ⟨a, b⟩ := p
    rw [setCol_cons]
    unfold hasCol at *
    by_cases ha : a = k
    · rw [if_pos ha, getVal_cons, getVal_cons]
      by_cases hk : k = k'
      · rw [if_pos hk, if_pos (ha.trans hk)]
        rfl
      · rw [if_neg hk, if_neg (fun hc => hk (ha ▸ hc)), ih]
    · rw [if_neg ha, getVal_cons, getVal_cons]
      by_cases hk : a = k'
      · rw [if_pos hk, if_pos hk]
      · rw [if_neg hk, if_neg hk, ih]

theorem getVal_applySets_not_mem (sets : Row) (row : Row) (k : String)
    (h : ∀ q ∈ sets, q.1 ≠ k) :
    getVal (applySets row sets) k = getVal row k := by
  induction sets generalizing row with
  | nil => rfl
  | cons q rest ih =>
    have hq : q.1 ≠ k := h q (List.mem_cons_self q rest)
    have hrest : ∀ p ∈ rest, p.1 ≠ k := fun p hp => h p (List.mem_cons_of_mem q hp)
    show getVal (applySets (setCol row q.1 q.2) rest) k = getVal row k
    rw [ih (setCol row q.1 q.2) hrest, getVal_setCol_ne row q.1 k q.2 hq]

theorem hasCol_applySets (sets : Row) (row : Row) (k : String) :
    hasCol (applySets row sets) k = hasCol row k := by
  induction sets generalizing row with
  | nil => rfl
  | cons q rest ih =>
    show hasCol (applySets (setCol row q.1 q.2) rest) k = hasCol row k
    rw [ih (setCol row q.1 q.2), hasCol_setCol]

theorem mem_of_getVal (row : Row) (k : String) (v : JsVal) (h : getVal row k = some v) :
    (k, v) ∈ row := by
  induction row with
  | nil => simp [getVal] at h
  | cons p r ih =>
    obtain ⟨a, b⟩ := p
    by_cases ha : a = k
    · rw [getVal_cons, if_pos ha] at h
      obtain rfl : b = v := by injection h
      subst ha
      exact List.mem_cons_self _ _
    · rw [getVal_cons, if_neg ha] at h
      exact List.mem_cons_of_mem _ (ih h)

theorem hasCol_false_not_mem (row : Row) (k : String) (h : hasCol row k = false) :
    k ∉ row.map Prod.fst := by
  induction row with
  | nil => simp
  | cons p r ih =>
    obtain ⟨a, b⟩ := p
    by_cases ha : a = k
    · exfalso
      rw [hasCol, getVal_cons, if_pos ha] at h
      simp at h
    · have h' : hasCol r k = false := by
        rw [hasCol, getVal_cons, if_neg ha] at h
        exact h
      simp only [List.map_cons, List.mem_cons]
      intro hc
      rcases hc with hc | hc
      · exact ha hc.symm
      · exact ih h' hc

theorem getVal_append_right (row l2 : Row) (k : String) (h : hasCol row k = false) :
    getVal (row ++ l2) k = getVal l2 k := by
  induction row with
  | nil => rfl
  | cons p r ih =>
    obtain ⟨a, b⟩ := p
    by_cases ha : a = k
    · exfalso
      rw [hasCol, getVal_cons, if_pos ha] at h
      simp at h
    · have h' : hasCol r k = false := by
        rw [hasCol, getVal_cons, if_neg ha] at h
        exact h
      rw [List.cons_append, getVal_cons, if_neg ha, ih h']

theorem getVal_setKey_self (row : Row) (k : String) (v : JsVal) :
    getVal (setKey row k v) k = some v := by
  unfold setKey
  cases hc : hasCol row k
  · simp only [Bool.false_eq_true, if_false]
    rw [getVal_append_right row _ k hc, getVal_cons, if_pos rfl]
  · simp only [if_true]
    exact getVal_setCol_self row k v hc

theorem keys_setCol (row : Row) (k : String) (v : JsVal) :
    (setCol row k v).map Prod.fst = row.map Prod.fst := by
  induction row with
  | nil => rfl
  | cons p r ih =>
    obtain ⟨a, b⟩ := p
    rw [setCol_cons]
    by_cases ha : a = k
    · rw [if_pos ha]
      simp only [List.map_cons, ih]
      rw [ha]
    · rw [if_neg ha]
      simp only [List.map_cons, ih]

theorem nodup_keys_setKey (row : Row) (k : String) (v : JsVal)
    (h : (row.map Prod.fst).Nodup) : ((setKey row k v).map Prod.fst).Nodup := by
  unfold setKey
  cases hc : hasCol row k
  · simp only [Bool.false_eq_true, if_false, List.map_append]
    rw [List.nodup_append]
    refine ⟨h, by simp, ?_⟩
    intro x hx
    simp only [List.map_cons, List.map_nil, List.mem_singleton]
    intro hk
    subst hk
    exact hasCol_false_not_mem row x hc hx
  · simp only [if_true]
    rw [keys_setCol]
    exact h

theorem nodup_keys_filter (f : String × JsVal → Bool) (p : Row)
    (h : (p.map Prod.fst).Nodup) : ((p.filter f).map Prod.fst).Nodup :=
  List.Nodup.sublist (List.Sublist.map Prod.fst (List.filter_sublist p)) h

theorem getVal_applySets_mem (sets : Row) (row : Row) (k : String) (v : JsVal)
    (hnd : (sets.map Prod.fst).Nodup) (hmem : (k, v) ∈ sets)
    (hcol : hasCol row k = true) :
    getVal (applySets row sets) k = some v := by
  induction sets generalizing row with
  | nil => simp at hmem
  | cons q rest ih =>
    obtain ⟨a, b⟩ := q
    show getVal (applySets (setCol row a b) rest) k = some v
    have hnd' : a ∉ rest.map Prod.fst ∧ (rest.map Prod.fst).Nodup := by
      simpa [List.nodup_cons] using hnd
    rcases List.mem_cons.mp hmem with heq | hmem'
    · have h1 : k = a := congrArg Prod.fst heq
      have h2 : v = b := congrArg Prod.snd heq
      subst h1
      subst h2
      have hkeys : ∀ q' ∈ rest, q'.1 ≠ k := by
        intro q' hq' hq1
        exact hnd'.1 (hq1 ▸ List.mem_map_of_mem Prod.fst hq')
      rw [getVal_applySets_not_mem rest _ k hkeys, getVal_setCol_self row k v hcol]
    · exact ih (setCol row a b) hnd'.2 hmem' (by rw [hasCol_setCol]; exact hcol)

theorem filter_idem (f : String × JsVal → Bool) (l : Row) :
    (l.filter f).filter f = l.filter f := by
  induction l with
  | nil => rfl
  | cons a t ih => cases hf : f a <;> simp [List.filter, hf, ih]

/-
  Helper lemmas for the pagination arithmetic and the slug pipeline.
-/

theorem ceilFrac_spec (total limit : Nat) (h : 1 ≤ limit) :
    total ≤ ceilFrac total limit * limit
      ∧ ∀ m, total ≤ m * limit → ceilFrac total limit ≤ m := by
  have hpos : 0 < limit := h
  constructor
  · have h1 : total + limit - 1 < (ceilFrac total limit + 1) * limit :=
      (Nat.div_lt_iff_lt_mul hpos).mp (Nat.lt_succ_self _)
    have h2 : (ceilFrac total limit + 1) * limit = ceilFrac total limit * limit + limit := by
      ring
    rw [h2] at h1
    generalize ceilFrac total limit * limit = X at *
    omega
  · intro m hm
    have hml : total + limit - 1 < (m + 1) * limit := by
      have h2 : (m + 1) * limit = m * limit + limit := by ring
      rw [h2]
      generalize m * limit = X at *
      omega
    have := (Nat.div_lt_iff_lt_mul hpos).mpr hml
    unfold ceilFrac
    omega

theorem collapseSpec_eq_and (l : List Nat) :
    collapseSpec l = collapseFrom false l ∧ skipSepRun l = collapseFrom true l := by
  induction l with
  | nil => exact ⟨rfl, rfl⟩
  | cons c r ih =>
    cases hc : isSepCode c
    · constructor <;> simp [collapseSpec, skipSepRun, collapseFrom, hc, ih.1]
    · constructor <;> simp [collapseSpec, skipSepRun, collapseFrom, hc, ih.2]

theorem collapseSpec_eq (l : List Nat) : collapseSpec l = collapseFrom false l :=
  (collapseSpec_eq_and l).1

theorem listFilterCongr {p q : Nat → Bool} (l : List Nat) (h : ∀ x ∈ l, p x = q x) :
    l.filter p = l.filter q := by
  induction l with
  | nil => rfl
  | cons a t ih =>
    have ha := h a (List.mem_cons_self a t)
    have ht : ∀ x ∈ t, p x = q x := fun x hx => h x (List.mem_cons_of_mem a hx)
    cases hq : q a
    · simp [List.filter, ha, hq, ih ht]
    · simp [List.filter, ha, hq, ih ht]

theorem lowerCode_not_upper (c : Nat) : ¬(65 ≤ lowerCode c ∧ lowerCode c ≤ 90) := by
  unfold lowerCode
  split <;> omega

theorem keep_eq_amended_on_lower (c : Nat) :
    ((fun d => isWordCode d || isWsCode d || decide (d = 45)) (lowerCode c))
      = specKeepAmended (lowerCode c) := by
  have h := lowerCode_not_upper c
  revert h
  generalize lowerCode c = n
  intro h
  rw [Bool.eq_iff_iff]
  simp only [isWordCode, isWsCode, specKeepAmended, Bool.or_eq_true, Bool.and_eq_true,
    decide_eq_true_eq]
  omega

theorem mem_of_mem_trimCodes (l : List Nat) (x : Nat) (h : x ∈ trimCodes l) : x ∈ l := by
  unfold trimCodes at h
  rw [List.mem_reverse] at h
  have h1 : x ∈ (l.dropWhile isWsCode).reverse := (List.dropWhile_sublist _).subset h
  rw [List.mem_reverse] at h1
  exact (List.dropWhile_sublist _).subset h1

theorem slugPipeline_eq_amended (l : List Nat) : slugPipeline l = slugifySpecAmended l := by
  unfold slugPipeline slugifySpecAmended collapseSeps
  rw [collapseSpec_eq]
  have hfil : (trimCodes (l.map lowerCode)).filter
        (fun c => isWordCode c || isWsCode c || decide (c = 45))
      = (trimCodes (l.map lowerCode)).filter specKeepAmended := by
    apply listFilterCongr
    intro x hx
    have hx' : x ∈ l.map lowerCode := mem_of_mem_trimCodes _ _ hx
    obtain ⟨c, hc, rfl⟩ := List.mem_map.mp hx'
    exact keep_eq_amended_on_lower c
  rw [hfil]

/-- Claim C4, counterexample: the spec's strip step "strip all characters
outside [a-z0-9, whitespace, hyphen]" does not match the code, whose regex
keeps the underscore (\w) and only later collapses it into a hyphen: on
"a_b" the code produces "a-b" while the spec's literal pipeline produces
"ab". -/
theorem slugify_strip_set_counterexample :
    Category.generateSlug "a_b" = "a-b"
  ∧ News.generateSlug "a_b" = "a-b"
  ∧ codesStr (slugifySpecStrict (strCodes "a_b")) = "ab"
  ∧ slugifySpecStrict (strCodes "a_b") ≠ Category.generateSlugCodes (strCodes "a_b") := by
  exact ⟨by decide, by decide, by decide, by decide⟩

set_option maxRecDepth 4000 in
/-- Claim C4, amended: slugify lowercases, trims, strips all characters
outside [a-z0-9, underscore, whitespace, hyphen], collapses runs of
whitespace, underscore and hyphen into a single hyphen, and strips leading
and trailing hyphens; the News variant truncates the result to 500 characters
while the Category variant does not; and the two example inputs map to
"breaking-tech-news" and "multi-space-title". -/
theorem slugify_amended_contract :
    (∀ l : List Nat, Category.generateSlugCodes l = slugifySpecAmended l)
  ∧ (∀ l : List Nat, News.generateSlugCodes l = (slugifySpecAmended l).take 500)
  ∧ (∀ l : List Nat, News.generateSlugCodes l = (Category.generateSlugCodes l).take 500)
  ∧ News.generateSlug "Breaking Tech News!" = "breaking-tech-news"
  ∧ Category.generateSlug "Breaking Tech News!" = "breaking-tech-news"
  ∧ News.generateSlug "  Multi   Space--Title " = "multi-space-title"
  ∧ Category.generateSlug "  Multi   Space--Title " = "multi-space-title"
  ∧ (Category.generateSlugCodes (List.replicate 501 97)).length = 501
  ∧ (News.generateSlugCodes (List.replicate 501 97)).length = 500 := by
  refine ⟨fun l => slugPipeline_eq_amended l, fun l => ?_, fun l => rfl,
    by decide, by decide, by decide, by decide, by decide, by decide⟩
  show (slugPipeline l).take 500 = (slugifySpecAmended l).take 500
  rw [slugPipeline_eq_amended]

/-- Claim C8: the preset list operations equal the generic listing with the
preset filter forced, and a caller-supplied value for the preset key is
always overridden (the preset is spread after the caller's options). -/
theorem preset_filters_override (rows : List Row) (o : NewsFindOptions)
    (v : Option JsVal) (cid aid : JsVal) (term : String) (w : Option String) :
    News.findPublished rows { o with status := v } = News.findPublished rows o
  ∧ News.findPublished rows o = News.findAll rows { o with status := some (vStr "published") }
  ∧ News.findByCategory rows cid { o with category_id := v } = News.findByCategory rows cid o
  ∧ News.findByCategory rows cid o = News.findAll rows { o with category_id := some cid }
  ∧ News.findByAuthor rows aid { o with author_id := v } = News.findByAuthor rows aid o
  ∧ News.findByAuthor rows aid o = News.findAll rows { o with author_id := some aid }
  ∧ News.search rows term { o with search := w } = News.search rows term o
  ∧ News.search rows term o = News.findAll rows { o with search := some term } := by
  obtain ⟨page, limit, sort, order, status, category_id, author_id, search⟩ := o
  exact ⟨rfl, rfl, rfl, rfl, rfl, rfl, rfl, rfl⟩

/-- Claim C9: News.create never writes published_at, for any payload — the
inserted row always carries the schema default NULL, even when the payload
status is "published". -/
theorem create_never_stamps_published_at (d : NewsCreateData) (newId : Nat) (now : Int) :
    getVal (News.create d newId now) "published_at" = some vNull
  ∧ getVal (News.create { d with status := some "published" } newId now) "published_at"
      = some vNull := by
  constructor <;> simp [News.create, getVal]

/-- Claim C5: a caller addressing their own user id is always rejected by
deleteUser and toggleUserStatus — a 400 error response, never a success, and
the users table (hence the caller's row) is unchanged. -/
theorem self_protection_rejects (user : Caller) (userId : Nat) (ustore : List Row)
    (now : Int) (h : user.id = (userId : Int)) :
    UserController.deleteUser user userId ustore = (⟨400, false⟩, ustore)
  ∧ UserController.toggleUserStatus user userId ustore now = (⟨400, false⟩, ustore) := by
  constructor
  · simp [UserController.deleteUser, h]
  · simp [UserController.toggleUserStatus, h]

/-- Claim C6: deleting a category succeeds only when it has no associated
news articles; with a positive joined news count the controller answers 400
and the categories table is unchanged.  The guard lives in the controller:
Category.deleteById itself deletes the row no matter what the news table
holds. -/
theorem category_delete_guard (catId : Nat) (cstore nstore : List Row) (cat : Row)
    (hfind : findRowById cstore catId = some cat) :
    ((CategoryController.deleteCategory catId cstore nstore).1.ok = true →
        newsCountFor nstore catId = 0)
  ∧ (0 < newsCountFor nstore catId →
        CategoryController.deleteCategory catId cstore nstore = (⟨400, false⟩, cstore))
  ∧ (Category.deleteById cstore catId).1 = true
  ∧ (Category.deleteById cstore catId).2 = removeRowById cstore catId := by
  have hmem : cat ∈ cstore := List.mem_of_find?_eq_some hfind
  have hid : rowHasId catId cat = true := List.find?_some hfind
  have hany : cstore.any (rowHasId catId) = true := List.any_eq_true.mpr ⟨cat, hmem, hid⟩
  refine ⟨?_, ?_, hany, rfl⟩
  · intro hok
    by_contra hne
    have hpos : 0 < newsCountFor nstore catId := Nat.pos_of_ne_zero hne
    simp [CategoryController.deleteCategory, hfind, hpos] at hok
  · intro hpos
    simp [CategoryController.deleteCategory, hfind, hpos]

/-- Claim C2: for every list operation (users, categories, news) and options
with page ≥ 1 and limit ≥ 1: the reported total is the number of rows
matching the filter and does not depend on page or limit; pages is the exact
ceiling of total over limit (least m with total ≤ m·limit); the fetched page
is the slice of the ordered filtered rows starting at offset (page-1)·limit;
and at most limit items are returned. -/
theorem list_pagination_contract
    (urows : List Row) (uo : UserFindOptions) (crows : List Row) (co : CategoryFindOptions)
    (nrows : List Row) (no : NewsFindOptions)
    (hup : 1 ≤ uo.page) (hul : 1 ≤ uo.limit) (hcp : 1 ≤ co.page) (hcl : 1 ≤ co.limit)
    (hnp : 1 ≤ no.page) (hnl : 1 ≤ no.limit) :
    listContractUser urows uo ∧ listContractCategory crows co ∧ listContractNews nrows no := by
  refine ⟨?_, ?_, ?_⟩
  · obtain ⟨page, limit, sort, order, role, is_active, search⟩ := uo
    exact ⟨rfl, fun p' l' => rfl, (ceilFrac_spec _ _ hul).1, (ceilFrac_spec _ _ hul).2,
      rfl, List.length_take_le _ _⟩
  · obtain ⟨page, limit, sort, order, is_active, search⟩ := co
    exact ⟨rfl, fun p' l' => rfl, (ceilFrac_spec _ _ hcl).1, (ceilFrac_spec _ _ hcl).2,
      rfl, List.length_take_le _ _⟩
  · obtain ⟨page, limit, sort, order, status, category_id, author_id, search⟩ := no
    exact ⟨rfl, fun p' l' => rfl, (ceilFrac_spec _ _ hnl).1, (ceilFrac_spec _ _ hnl).2,
      rfl, List.length_take_le _ _⟩

theorem filterAllowed_key_mem (allowed : List String) (p : Row) (q : String × JsVal)
    (hq : q ∈ filterAllowed allowed p) : q.1 ∈ allowed :=
  of_decide_eq_true (List.mem_filter.mp hq).2

theorem filterAllowed_nonempty_of_mem (allowed : List String) (p : Row)
    (q : String × JsVal) (hq : q ∈ p) (ha : q.1 ∈ allowed) :
    (filterAllowed allowed p).isEmpty = false := by
  have hmem : q ∈ filterAllowed allowed p :=
    List.mem_filter.mpr ⟨hq, decide_eq_true ha⟩
  cases hfa : filterAllowed allowed p with
  | nil => rw [hfa] at hmem; simp at hmem
  | cons a l => rfl

/-- Claim C3: News.updateById stamps published_at with the current timestamp
when the payload status is "published", clears it to NULL when the payload
status is "draft" or "archived", and leaves it untouched when the payload
carries no status field. -/
theorem news_published_at_transitions (row p : Row) (now : Int)
    (hcol : hasCol row "published_at" = true) :
    (getVal p "status" = some (vStr "published") →
      ∃ r', News.updateById row p now = Except.ok r'
        ∧ getVal r' "published_at" = some (vNum now))
  ∧ (∀ s, getVal p "status" = some (vStr s) → (s = "draft" ∨ s = "archived") →
      ∃ r', News.updateById row p now = Except.ok r'
        ∧ getVal r' "published_at" = some vNull)
  ∧ (getVal p "status" = none →
      ∀ r', News.updateById row p now = Except.ok r' →
        getVal r' "published_at" = getVal row "published_at") := by
  have hne_of_status : ∀ v, getVal p "status" = some v →
      (filterAllowed newsAllowedFields p).isEmpty = false := by
    intro v hv
    exact filterAllowed_nonempty_of_mem newsAllowedFields p ("status", v)
      (mem_of_getVal p _ v hv) (by show "status" ∈ newsAllowedFields; decide)
  refine ⟨?_, ?_, ?_⟩
  · intro hst
    have hne := hne_of_status _ hst
    have heq : News.updateById row p now
        = Except.ok (setCol (setCol (applySets row (filterAllowed newsAllowedFields p))
            "published_at" (vNum now)) "updated_at" (vNum now)) := by
      simp [News.updateById, hne, hst]
    refine ⟨_, heq, ?_⟩
    rw [getVal_setCol_ne _ _ _ _ (by decide)]
    exact getVal_setCol_self _ "published_at" (vNum now)
      (by rw [hasCol_applySets]; exact hcol)
  · intro s hst hs
    have hne := hne_of_status _ hst
    have hnp : ¬(vStr s = vStr "published") := by
      rcases hs with rfl | rfl <;> decide
    have htr : truthy (vStr s) = true := by
      rcases hs with rfl | rfl <;> decide
    have heq : News.updateById row p now
        = Except.ok (setCol (setCol (applySets row (filterAllowed newsAllowedFields p))
            "published_at" vNull) "updated_at" (vNum now)) := by
      simp [News.updateById, hne, hst, hnp, htr]
    refine ⟨_, heq, ?_⟩
    rw [getVal_setCol_ne _ _ _ _ (by decide)]
    exact getVal_setCol_self _ "published_at" vNull
      (by rw [hasCol_applySets]; exact hcol)
  · intro hst r' hok
    cases hfa : (filterAllowed newsAllowedFields p).isEmpty
    · have heq : News.updateById row p now
          = Except.ok (setCol (applySets row (filterAllowed newsAllowedFields p))
              "updated_at" (vNum now)) := by
        simp [News.updateById, hfa, hst]
      rw [heq] at hok
      obtain rfl : setCol (applySets row (filterAllowed newsAllowedFields p))
          "updated_at" (vNum now) = r' := by
        injection hok
      rw [getVal_setCol_ne _ _ _ _ (by decide)]
      apply getVal_applySets_not_mem
      intro q hq hbad
      have hmem := filterAllowed_key_mem _ _ _ hq
      rw [hbad] at hmem
      exact absurd hmem (by decide)
    · simp [News.updateById, hfa] at hok

theorem allowUpdate_frame (allowed : List String) (row p : Row) (now : Int) (k : String)
    (hk : k ∉ allowed) (hk2 : k ≠ "updated_at") :
    getVal (setCol (applySets row (filterAllowed allowed p)) "updated_at" (vNum now)) k
      = getVal row k := by
  rw [getVal_setCol_ne _ _ _ _ (Ne.symm hk2)]
  apply getVal_applySets_not_mem
  intro q hq hbad
  exact hk (hbad ▸ filterAllowed_key_mem _ _ _ hq)

/-- Claim C1: for an existing article, updateNews and deleteNews answer 403
exactly when the caller is neither admin nor editor nor the author; in that
case the response is the Forbidden error and the news table is unchanged,
regardless of the payload. -/
theorem news_ownership_gate
    (user : Caller) (newsId : Nat) (body : Row) (nstore cstore : List Row) (now : Int)
    (row : Row) (hfind : findRowById nstore newsId = some row) :
    ((NewsController.updateNews user newsId body nstore cstore now).1.code = 403
        ↔ ¬(user.role = "admin" ∨ user.role = "editor"
              ∨ getVal row "author_id" = some (vNum user.id)))
  ∧ ((NewsController.deleteNews user newsId nstore).1.code = 403
        ↔ ¬(user.role = "admin" ∨ user.role = "editor"
              ∨ getVal row "author_id" = some (vNum user.id)))
  ∧ (¬(user.role = "admin" ∨ user.role = "editor"
          ∨ getVal row "author_id" = some (vNum user.id)) →
        NewsController.updateNews user newsId body nstore cstore now = (⟨403, false⟩, nstore)
        ∧ NewsController.deleteNews user newsId nstore = (⟨403, false⟩, nstore)) := by
  have hiff : newsAuthorized user row = true
      ↔ (user.role = "admin" ∨ user.role = "editor"
          ∨ getVal row "author_id" = some (vNum user.id)) := by
    simp [newsAuthorized, or_assoc]
  cases hA : newsAuthorized user row
  case false =>
    have hP : ¬(user.role = "admin" ∨ user.role = "editor"
        ∨ getVal row "author_id" = some (vNum user.id)) := fun hp => by
      simp [hiff.mpr hp] at hA
    have e1 : NewsController.updateNews user newsId body nstore cstore now
        = (⟨403, false⟩, nstore) := by
      simp [NewsController.updateNews, hfind, hA]
    have e2 : NewsController.deleteNews user newsId nstore = (⟨403, false⟩, nstore) := by
      simp [NewsController.deleteNews, hfind, hA]
    refine ⟨?_, ?_, fun _ => ⟨e1, e2⟩⟩
    · rw [e1]
      exact iff_of_true rfl hP
    · rw [e2]
      exact iff_of_true rfl hP
  case true =>
    have hP := hiff.mp hA
    have e1 : (NewsController.updateNews user newsId body nstore cstore now).1.code ≠ 403 := by
      simp only [NewsController.updateNews, hfind, hA, Bool.not_true, Bool.false_eq_true,
        if_false]
      cases hs : newsSlugStep body with
      | none => simp
      | some body' =>
        simp only []
        cases hc : newsSlugConflict body' nstore newsId
        · simp only [hc, Bool.false_eq_true, if_false]
          cases hm : newsCategoryMissing body' cstore
          · simp only [hm, Bool.false_eq_true, if_false]
            cases hu : News.updateById row body' now with
            | error e => simp [hu]
            | ok r' => simp [hu]
          · simp [hm]
        · simp [hc]
    have e2 : (NewsController.deleteNews user newsId nstore).1.code ≠ 403 := by
      simp only [NewsController.deleteNews, hfind, hA, Bool.not_true, Bool.false_eq_true,
        if_false]
      cases hd : (News.deleteById nstore newsId).1 <;> simp [hd]
    exact ⟨iff_of_false e1 (not_not_intro hP), iff_of_false e2 (not_not_intro hP),
      fun hnp => absurd hP hnp⟩

theorem getVal_append_singleton_ne (row : Row) (k k' : String) (v : JsVal) (h : k ≠ k') :
    getVal (row ++ [(k, v)]) k' = getVal row k' := by
  induction row with
  | nil => simp [getVal, h]
  | cons q r ih =>
    obtain ⟨a, b⟩ := q
    by_cases ha : a = k'
    · rw [List.cons_append, getVal_cons, getVal_cons, if_pos ha, if_pos ha]
    · rw [List.cons_append, getVal_cons, getVal_cons, if_neg ha, if_neg ha, ih]

theorem getVal_setKey_ne (row : Row) (k k' : String) (v : JsVal) (h : k ≠ k') :
    getVal (setKey row k v) k' = getVal row k' := by
  unfold setKey
  cases hc : hasCol row k
  · rw [if_neg (by simp)]
    exact getVal_append_singleton_ne row k k' v h
  · rw [if_pos rfl]
    exact getVal_setCol_ne _ _ _ _ h

theorem news_update_slug_value (row body' : Row) (now : Int) (sv : JsVal) (r' : Row)
    (hcolslug : hasCol row "slug" = true)
    (hnd' : (body'.map Prod.fst).Nodup)
    (hmem : ("slug", sv) ∈ body')
    (hu : News.updateById row body' now = Except.ok r') :
    getVal r' "slug" = some sv := by
  have hmemf : ("slug", sv) ∈ filterAllowed newsAllowedFields body' :=
    List.mem_filter.mpr ⟨hmem,
      decide_eq_true (show ("slug" : String) ∈ newsAllowedFields by decide)⟩
  have hbase : getVal (applySets row (filterAllowed newsAllowedFields body')) "slug"
      = some sv :=
    getVal_applySets_mem _ _ _ _ (nodup_keys_filter _ _ hnd') hmemf hcolslug
  have hne : (filterAllowed newsAllowedFields body').isEmpty = false := by
    cases hfa : filterAllowed newsAllowedFields body' with
    | nil => rw [hfa] at hmemf; simp at hmemf
    | cons a l => rfl
  cases hst : getVal body' "status" with
  | none =>
    have heq : setCol (applySets row (filterAllowed newsAllowedFields body'))
        "updated_at" (vNum now) = r' := by
      simpa [News.updateById, hne, hst] using hu
    rw [← heq, getVal_setCol_ne _ _ _ _ (by decide)]
    exact hbase
  | some v =>
    by_cases hv : v = vStr "published"
    · have heq : setCol (setCol (applySets row (filterAllowed newsAllowedFields body'))
          "published_at" (vNum now)) "updated_at" (vNum now) = r' := by
        simpa [News.updateById, hne, hst, hv] using hu
      rw [← heq, getVal_setCol_ne _ _ _ _ (by decide),
        getVal_setCol_ne _ _ _ _ (by decide)]
      exact hbase
    · cases htv : truthy v
      · have heq : setCol (applySets row (filterAllowed newsAllowedFields body'))
            "updated_at" (vNum now) = r' := by
          simpa [News.updateById, hne, hst, hv, htv] using hu
        rw [← heq, getVal_setCol_ne _ _ _ _ (by decide)]
        exact hbase
      · have heq : setCol (setCol (applySets row (filterAllowed newsAllowedFields body'))
            "published_at" vNull) "updated_at" (vNum now) = r' := by
          simpa [News.updateById, hne, hst, hv, htv] using hu
        rw [← heq, getVal_setCol_ne _ _ _ _ (by decide),
          getVal_setCol_ne _ _ _ _ (by decide)]
        exact hbase

theorem cat_update_slug_value (row body' : Row) (now : Int) (sv : JsVal) (r' : Row)
    (hcolslug : hasCol row "slug" = true)
    (hnd' : (body'.map Prod.fst).Nodup)
    (hmem : ("slug", sv) ∈ body')
    (hu : Category.updateById row body' now = Except.ok r') :
    getVal r' "slug" = some sv := by
  have hmemf : ("slug", sv) ∈ filterAllowed categoryAllowedFields body' :=
    List.mem_filter.mpr ⟨hmem,
      decide_eq_true (show ("slug" : String) ∈ categoryAllowedFields by decide)⟩
  have hbase : getVal (applySets row (filterAllowed categoryAllowedFields body')) "slug"
      = some sv :=
    getVal_applySets_mem _ _ _ _ (nodup_keys_filter _ _ hnd') hmemf hcolslug
  have hne : (filterAllowed categoryAllowedFields body').isEmpty = false := by
    cases hfa : filterAllowed categoryAllowedFields body' with
    | nil => rw [hfa] at hmemf; simp at hmemf
    | cons a l => rfl
  have heq : setCol (applySets row (filterAllowed categoryAllowedFields body'))
      "updated_at" (vNum now) = r' := by
    simpa [Category.updateById, hne] using hu
  rw [← heq, getVal_setCol_ne _ _ _ _ (by decide)]
  exact hbase

/-- Claim C10: when an update payload carries a (truthy) title but no truthy
slug, a successful updateNews stores a row whose slug is freshly generated
from the new title; likewise a successful updateCategory with a name and no
slug stores the slug generated from the new name. -/
theorem slug_regenerated_on_rename
    (user : Caller) (newsId : Nat) (body : Row) (nstore cstore : List Row) (now : Int)
    (row : Row) (t : String)
    (hfind : findRowById nstore newsId = some row)
    (hnd : (body.map Prod.fst).Nodup)
    (hcolslug : hasCol row "slug" = true)
    (ht : getVal body "title" = some (vStr t)) (htt : t ≠ "")
    (hs : truthyO (getVal body "slug") = false)
    (catId : Nat) (cbody : Row) (cstore2 : List Row) (crow : Row) (cn : String)
    (hcfind : findRowById cstore2 catId = some crow)
    (hcnd : (cbody.map Prod.fst).Nodup)
    (hccol : hasCol crow "slug" = true)
    (hcn : getVal cbody "name" = some (vStr cn)) (hcnt : cn ≠ "")
    (hcs : truthyO (getVal cbody "slug") = false) :
    ((NewsController.updateNews user newsId body nstore cstore now).1.ok = true →
      ∃ r', (NewsController.updateNews user newsId body nstore cstore now).2
          = replaceRowById nstore newsId r'
        ∧ getVal r' "slug" = some (vStr (News.generateSlug t)))
  ∧ ((CategoryController.updateCategory catId cbody cstore2 now).1.ok = true →
      ∃ r', (CategoryController.updateCategory catId cbody cstore2 now).2
          = replaceRowById cstore2 catId r'
        ∧ getVal r' "slug" = some (vStr (Category.generateSlug cn))) := by
  constructor
  · intro hok
    have htr : truthyO (getVal body "title") = true := by
      rw [ht]
      simp [truthyO, truthy, htt]
    have hstep : newsSlugStep body
        = some (setKey body "slug" (vStr (News.generateSlug t))) := by
      unfold newsSlugStep
      rw [htr, hs]
      simp [ht]
    have hmem' : ("slug", vStr (News.generateSlug t))
        ∈ setKey body "slug" (vStr (News.generateSlug t)) :=
      mem_of_getVal _ _ _ (getVal_setKey_self body "slug" _)
    have hnd' : ((setKey body "slug" (vStr (News.generateSlug t))).map Prod.fst).Nodup :=
      nodup_keys_setKey body "slug" _ hnd
    cases hA : newsAuthorized user row
    · simp [NewsController.updateNews, hfind, hA] at hok
    · simp only [NewsController.updateNews, hfind, hA, Bool.not_true, Bool.false_eq_true,
        if_false, hstep] at hok ⊢
      cases hc : newsSlugConflict (setKey body "slug" (vStr (News.generateSlug t)))
          nstore newsId
      · simp only [hc, Bool.false_eq_true, if_false] at hok ⊢
        cases hm : newsCategoryMissing (setKey body "slug" (vStr (News.generateSlug t)))
            cstore
        · simp only [hm, Bool.false_eq_true, if_false] at hok ⊢
          cases hu : News.updateById row (setKey body "slug" (vStr (News.generateSlug t))) now
            with
          | error e => simp [hu] at hok
          | ok r' =>
            simp only [hu]
            exact ⟨r', rfl, news_update_slug_value row _ now _ r' hcolslug hnd' hmem' hu⟩
        · simp [hm] at hok
      · simp [hc] at hok
  · intro hok
    have htr : truthyO (getVal cbody "name") = true := by
      rw [hcn]
      simp [truthyO, truthy, hcnt]
    have hstep : catSlugStep cbody
        = some (setKey cbody "slug" (vStr (Category.generateSlug cn))) := by
      unfold catSlugStep
      rw [htr, hcs]
      simp [hcn]
    have hmem' : ("slug", vStr (Category.generateSlug cn))
        ∈ setKey cbody "slug" (vStr (Category.generateSlug cn)) :=
      mem_of_getVal _ _ _ (getVal_setKey_self cbody "slug" _)
    have hnd' : ((setKey cbody "slug" (vStr (Category.generateSlug cn))).map Prod.fst).Nodup :=
      nodup_keys_setKey cbody "slug" _ hcnd
    simp only [CategoryController.updateCategory, hcfind, hstep] at hok ⊢
    cases hc : catConflict (setKey cbody "slug" (vStr (Category.generateSlug cn)))
        crow cstore2 catId
    · simp only [hc, Bool.false_eq_true, if_false] at hok ⊢
      cases hu : Category.updateById crow (setKey cbody "slug" (vStr (Category.generateSlug cn))) now
        with
      | error e => simp [hu] at hok
      | ok r' =>
        simp only [hu]
        exact ⟨r', rfl, cat_update_slug_value crow _ now _ r' hccol hnd' hmem' hu⟩
    · simp [hc] at hok

/-- Witness for claim C1 at a concrete store and caller. -/
theorem news_ownership_gate_witness :
    (NewsController.updateNews ⟨9, "user"⟩ 1 [("title", vStr "X")] demoNewsStore
        demoCatStore 5).1.code = 403
  ∧ (NewsController.updateNews ⟨9, "user"⟩ 1 [("title", vStr "X")] demoNewsStore
        demoCatStore 5).2 = demoNewsStore := by
  have h := news_ownership_gate ⟨9, "user"⟩ 1 [("title", vStr "X")] demoNewsStore
    demoCatStore 5 demoNewsRow (by decide)
  have hP : ¬((Caller.mk 9 "user").role = "admin" ∨ (Caller.mk 9 "user").role = "editor"
      ∨ getVal demoNewsRow "author_id" = some (vNum (Caller.mk 9 "user").id)) := by decide
  refine ⟨h.1.mpr hP, ?_⟩
  rw [(h.2.2 hP).1]

/-- Witness for claim C2 at concrete stores and options. -/
theorem list_pagination_contract_witness :
    listContractUser demoUserStore demoUserOpts
  ∧ listContractCategory demoCatStore demoCatOpts
  ∧ listContractNews demoNewsStore demoNewsOpts :=
  list_pagination_contract demoUserStore demoUserOpts demoCatStore demoCatOpts
    demoNewsStore demoNewsOpts (by decide) (by decide) (by decide) (by decide)
    (by decide) (by decide)

/-- Witness for claim C3 at a concrete row and payload. -/
theorem news_published_at_transitions_witness :
    ∃ r', News.updateById demoNewsRow [("status", vStr "published")] 5 = Except.ok r'
      ∧ getVal r' "published_at" = some (vNum 5) :=
  (news_published_at_transitions demoNewsRow [("status", vStr "published")] 5
    (by decide)).1 (by decide)

/-- Witness for claim C5 at a concrete admin caller addressing itself. -/
theorem self_protection_rejects_witness :
    UserController.deleteUser ⟨5, "admin"⟩ 5 demoUserStore = (⟨400, false⟩, demoUserStore)
  ∧ UserController.toggleUserStatus ⟨5, "admin"⟩ 5 demoUserStore 9
      = (⟨400, false⟩, demoUserStore) :=
  self_protection_rejects ⟨5, "admin"⟩ 5 demoUserStore 9 (by decide)

/-- Witness for claim C6 at a concrete category with one associated article. -/
theorem category_delete_guard_witness :
    CategoryController.deleteCategory 3 demoCatStore demoNewsStore
      = (⟨400, false⟩, demoCatStore)
  ∧ (Category.deleteById demoCatStore 3).1 = true := by
  have h := category_delete_guard 3 demoCatStore demoNewsStore demoCatRow (by decide)
  exact ⟨h.2.1 (by decide), h.2.2.1⟩

/-- Witness for claim C10 at concrete rename payloads. -/
theorem slug_regenerated_on_rename_witness :
    (∃ r', (NewsController.updateNews ⟨7, "user"⟩ 1 [("title", vStr "New Title")]
          demoNewsStore demoCatStore 5).2 = replaceRowById demoNewsStore 1 r'
        ∧ getVal r' "slug" = some (vStr (News.generateSlug "New Title")))
  ∧ (∃ r', (CategoryController.updateCategory 3 [("name", vStr "Fresh Name")]
          demoCatStore 5).2 = replaceRowById demoCatStore 3 r'
        ∧ getVal r' "slug" = some (vStr (Category.generateSlug "Fresh Name"))) := by
  have h := slug_regenerated_on_rename ⟨7, "user"⟩ 1 [("title", vStr "New Title")]
    demoNewsStore demoCatStore 5 demoNewsRow "New Title" (by decide) (by decide)
    (by decide) (by decide) (by decide) (by decide) 3 [("name", vStr "Fresh Name")]
    demoCatStore demoCatRow "Fresh Name" (by decide) (by decide) (by decide)
    (by decide) (by decide) (by decide)
  exact ⟨h.1 (by decide), h.2 (by decide)⟩

theorem filterAllowed_idem (allowed : List String) (p : Row) :
    filterAllowed allowed (filterAllowed allowed p) = filterAllowed allowed p :=
  filter_idem _ p

theorem getVal_filterAllowed_of_mem (allowed : List String) (p : Row) (k : String)
    (hk : k ∈ allowed) : getVal (filterAllowed allowed p) k = getVal p k := by
  induction p with
  | nil => rfl
  | cons q r ih =>
    obtain ⟨a, b⟩ := q
    by_cases ha : a = k
    · have hkeep : decide ((a, b).1 ∈ allowed) = true := decide_eq_true (ha ▸ hk)
      simp only [filterAllowed, List.filter_cons, hkeep, if_true]
      rw [getVal_cons, getVal_cons, if_pos ha, if_pos ha]
    · cases hkeep : decide ((a, b).1 ∈ allowed)
      · simp only [filterAllowed, List.filter_cons, hkeep, Bool.false_eq_true, if_false]
        rw [getVal_cons, if_neg ha]
        exact ih
      · simp only [filterAllowed, List.filter_cons, hkeep, if_true]
        rw [getVal_cons, getVal_cons, if_neg ha, if_neg ha]
        exact ih

theorem news_allowUpdate_frame (row p : Row) (now : Int) (k : String)
    (hk : k ∉ newsAllowedFields) (hk2 : k ≠ "updated_at") (hk3 : k ≠ "published_at") :
    ∀ r', News.updateById row p now = Except.ok r' → getVal r' k = getVal row k := by
  intro r' hok
  have hbase : getVal (applySets row (filterAllowed newsAllowedFields p)) k
      = getVal row k := by
    apply getVal_applySets_not_mem
    intro q hq hbad
    exact hk (hbad ▸ filterAllowed_key_mem _ _ _ hq)
  cases hfa : (filterAllowed newsAllowedFields p).isEmpty
  · cases hst : getVal p "status" with
    | none =>
      have heq : setCol (applySets row (filterAllowed newsAllowedFields p))
          "updated_at" (vNum now) = r' := by
        simpa [News.updateById, hfa, hst] using hok
      rw [← heq, getVal_setCol_ne _ _ _ _ (Ne.symm hk2)]
      exact hbase
    | some v =>
      by_cases hv : v = vStr "published"
      · have heq : setCol (setCol (applySets row (filterAllowed newsAllowedFields p))
            "published_at" (vNum now)) "updated_at" (vNum now) = r' := by
          simpa [News.updateById, hfa, hst, hv] using hok
        rw [← heq, getVal_setCol_ne _ _ _ _ (Ne.symm hk2),
          getVal_setCol_ne _ _ _ _ (Ne.symm hk3)]
        exact hbase
      · cases htv : truthy v
        · have heq : setCol (applySets row (filterAllowed newsAllowedFields p))
              "updated_at" (vNum now) = r' := by
            simpa [News.updateById, hfa, hst, hv, htv] using hok
          rw [← heq, getVal_setCol_ne _ _ _ _ (Ne.symm hk2)]
          exact hbase
        · have heq : setCol (setCol (applySets row (filterAllowed newsAllowedFields p))
              "published_at" vNull) "updated_at" (vNum now) = r' := by
            simpa [News.updateById, hfa, hst, hv, htv] using hok
          rw [← heq, getVal_setCol_ne _ _ _ _ (Ne.symm hk2),
            getVal_setCol_ne _ _ _ _ (Ne.symm hk3)]
          exact hbase
  · simp [News.updateById, hfa] at hok

theorem news_published_at_untouched (row p : Row) (now : Int)
    (hsf : ∀ v, getVal p "status" = some v → truthy v = false) :
    ∀ r', News.updateById row p now = Except.ok r' →
      getVal r' "published_at" = getVal row "published_at" := by
  intro r' hok
  have hbase : getVal (applySets row (filterAllowed newsAllowedFields p)) "published_at"
      = getVal row "published_at" := by
    apply getVal_applySets_not_mem
    intro q hq hbad
    have hm := filterAllowed_key_mem _ _ _ hq
    rw [hbad] at hm
    exact absurd hm (by decide)
  cases hfa : (filterAllowed newsAllowedFields p).isEmpty
  · cases hst : getVal p "status" with
    | none =>
      have heq : setCol (applySets row (filterAllowed newsAllowedFields p))
          "updated_at" (vNum now) = r' := by
        simpa [News.updateById, hfa, hst] using hok
      rw [← heq, getVal_setCol_ne _ _ _ _ (by decide)]
      exact hbase
    | some v =>
      have htv : truthy v = false := hsf v hst
      have hv : ¬(v = vStr "published") := by
        intro h
        rw [h] at htv
        simp [truthy] at htv
      have heq : setCol (applySets row (filterAllowed newsAllowedFields p))
          "updated_at" (vNum now) = r' := by
        simpa [News.updateById, hfa, hst, hv, htv] using hok
      rw [← heq, getVal_setCol_ne _ _ _ _ (by decide)]
      exact hbase
  · simp [News.updateById, hfa] at hok

/-- Claim C7, counterexample: the claim quantifies over every entity, but for
News it fails — published_at is not on News.updateById's allow-list, yet a
payload carrying only an allow-listed truthy status mutates it (stamping the
current timestamp here, from NULL). -/
theorem update_allowlist_counterexample :
    "published_at" ∉ newsAllowedFields
  ∧ getVal demoNewsRow "published_at" = some vNull
  ∧ News.updateById demoNewsRow [("status", vStr "published")] 5
      = Except.ok
        [("id", vNum 1), ("title", vStr "Hello World"), ("content", vStr "Body text"),
         ("summary", vNull), ("slug", vStr "hello-world"), ("featured_image", vNull),
         ("status", vStr "published"), ("category_id", vNum 3), ("author_id", vNum 7),
         ("published_at", vNum 5), ("created_at", vNum 0), ("updated_at", vNum 5)] := by
  exact ⟨by decide, rfl, rfl⟩

/-- Claim C7, amended: User.updateById, Category.updateById and News.updateById
mutate only payload fields on the entity's fixed allow-list; payload entries
outside it are silently dropped with no effect (in particular password and id
are never mutable for any payload, nor is a news row's author_id), and when
nothing allow-listed remains the update fails with the no-fields error without
touching the row.  Besides the always-stamped updated_at, News.updateById
additionally mutates published_at whenever the payload carries a truthy
status; with no truthy status in the payload, published_at is untouched. -/
theorem update_allowlist_frame_all (row p : Row) (now : Int) :
    (User.updateById row p now
        = User.updateById row (filterAllowed userAllowedFields p) now)
  ∧ (∀ k, k ∉ userAllowedFields → k ≠ "updated_at" →
      ∀ r', User.updateById row p now = Except.ok r' → getVal r' k = getVal row k)
  ∧ (∀ r', User.updateById row p now = Except.ok r' →
      getVal r' "password" = getVal row "password" ∧ getVal r' "id" = getVal row "id")
  ∧ (filterAllowed userAllowedFields p = [] →
      User.updateById row p now = Except.error "No valid fields to update")
  ∧ (Category.updateById row p now
        = Category.updateById row (filterAllowed categoryAllowedFields p) now)
  ∧ (∀ k, k ∉ categoryAllowedFields → k ≠ "updated_at" →
      ∀ r', Category.updateById row p now = Except.ok r' → getVal r' k = getVal row k)
  ∧ (∀ r', Category.updateById row p now = Except.ok r' →
      getVal r' "password" = getVal row "password" ∧ getVal r' "id" = getVal row "id")
  ∧ (filterAllowed categoryAllowedFields p = [] →
      Category.updateById row p now = Except.error "No valid fields to update")
  ∧ (News.updateById row p now
        = News.updateById row (filterAllowed newsAllowedFields p) now)
  ∧ (∀ k, k ∉ newsAllowedFields → k ≠ "updated_at" → k ≠ "published_at" →
      ∀ r', News.updateById row p now = Except.ok r' → getVal r' k = getVal row k)
  ∧ (∀ r', News.updateById row p now = Except.ok r' →
      getVal r' "id" = getVal row "id"
        ∧ getVal r' "author_id" = getVal row "author_id")
  ∧ ((∀ v, getVal p "status" = some v → truthy v = false) →
      ∀ r', News.updateById row p now = Except.ok r' →
        getVal r' "published_at" = getVal row "published_at")
  ∧ (filterAllowed newsAllowedFields p = [] →
      News.updateById row p now = Except.error "No valid fields to update") := by
  have huser : ∀ k, k ∉ userAllowedFields → k ≠ "updated_at" →
      ∀ r', User.updateById row p now = Except.ok r' → getVal r' k = getVal row k := by
    intro k hk hk2 r' hok
    cases hfa : (filterAllowed userAllowedFields p).isEmpty
    · have heq : setCol (applySets row (filterAllowed userAllowedFields p))
          "updated_at" (vNum now) = r' := by
        simpa [User.updateById, hfa] using hok
      rw [← heq]
      exact allowUpdate_frame userAllowedFields row p now k hk hk2
    · simp [User.updateById, hfa] at hok
  have hcat : ∀ k, k ∉ categoryAllowedFields → k ≠ "updated_at" →
      ∀ r', Category.updateById row p now = Except.ok r' → getVal r' k = getVal row k := by
    intro k hk hk2 r' hok
    cases hfa : (filterAllowed categoryAllowedFields p).isEmpty
    · have heq : setCol (applySets row (filterAllowed categoryAllowedFields p))
          "updated_at" (vNum now) = r' := by
        simpa [Category.updateById, hfa] using hok
      rw [← heq]
      exact allowUpdate_frame categoryAllowedFields row p now k hk hk2
    · simp [Category.updateById, hfa] at hok
  refine ⟨?_, huser, ?_, ?_, ?_, hcat, ?_, ?_, ?_, ?_, ?_,
    news_published_at_untouched row p now, ?_⟩
  · simp only [User.updateById, filterAllowed, filter_idem]
  · intro r' hok
    exact ⟨huser "password" (by decide) (by decide) r' hok,
      huser "id" (by decide) (by decide) r' hok⟩
  · intro hfa
    simp [User.updateById, hfa]
  · simp only [Category.updateById, filterAllowed, filter_idem]
  · intro r' hok
    exact ⟨hcat "password" (by decide) (by decide) r' hok,
      hcat "id" (by decide) (by decide) r' hok⟩
  · intro hfa
    simp [Category.updateById, hfa]
  · simp only [News.updateById, filterAllowed_idem,
      getVal_filterAllowed_of_mem newsAllowedFields p "status" (by decide)]
  · intro k hk hk2 hk3
    exact news_allowUpdate_frame row p now k hk hk2 hk3
  · intro r' hok
    exact ⟨news_allowUpdate_frame row p now "id" (by decide) (by decide) (by decide) r' hok,
      news_allowUpdate_frame row p now "author_id" (by decide) (by decide) (by decide) r' hok⟩
  · intro hfa
    simp [News.updateById, hfa]

/-- Witness for claim C7 at concrete payloads holding only blocked fields. -/
theorem update_allowlist_frame_all_witness :
    User.updateById demoUserRow [("password", vStr "evil"), ("id", vNum 99)] 9
      = Except.error "No valid fields to update"
  ∧ Category.updateById demoCatRow [("id", vNum 99)] 9
      = Except.error "No valid fields to update"
  ∧ News.updateById demoNewsRow [("published_at", vNum 7), ("author_id", vNum 99)] 9
      = Except.error "No valid fields to update" := by
  have h1 := update_allowlist_frame_all demoUserRow
    [("password", vStr "evil"), ("id", vNum 99)] 9
  have h2 := update_allowlist_frame_all demoCatRow [("id", vNum 99)] 9
  have h3 := update_allowlist_frame_all demoNewsRow
    [("published_at", vNum 7), ("author_id", vNum 99)] 9
  exact ⟨h1.2.2.2.1 (by decide), h2.2.2.2.2.2.2.2.1 (by decide),
    h3.2.2.2.2.2.2.2.2.2.2.2.2 (by decide)⟩
